import Mathlib

/-!
Verification of the result pipeline of gulp-eslint-new against its source
(src/util.js). The JavaScript functions are shallowly embedded as Lean
definitions: plain objects with a fixed field set become structures, the
dynamic option objects become association lists of string keys and a small
JavaScript value type, fallible code returns Except, and in-place mutation
of arrays and allocation of fresh objects are made explicit where a claim
is about them.
-/

namespace GulpESLintNew

/-! ### Lint messages and results (src/util.js data model)

A lint message carries a numeric severity (1 = warning, 2 = error), an
optional fatal flag (absent in JavaScript means undefined, i.e. falsy), an
optional autofix payload whose content the core never inspects, and the
message text. Other fields (ruleId, line, column, ...) are never inspected
by src/util.js and are omitted. -/

structure LintMessage where
  severity : Nat
  fatal : Option Bool := none
  fix : Option Unit := none
  message : String := ""
deriving DecidableEq, Repr

/-- Per-file lint result: file path, ordered message list, five derived
counts, as in the objects produced and consumed by src/util.js. -/
structure LintResult where
  filePath : String
  messages : List LintMessage
  errorCount : Nat
  warningCount : Nat
  fixableErrorCount : Nat
  fixableWarningCount : Nat
  fatalErrorCount : Nat
deriving DecidableEq, Repr

/-- Embeds isErrorMessage from src/util.js: severity > 1. -/
def isErrorMessage (m : LintMessage) : Bool :=
  m.severity > 1

/-- Embeds isWarningMessage from src/util.js: severity === 1. -/
def isWarningMessage (m : LintMessage) : Bool :=
  m.severity == 1

/-- Truthiness of the optional fatal flag, as tested by the source with
a double negation: only an explicit true is truthy. -/
def fatalTruthy (m : LintMessage) : Bool :=
  m.fatal.getD false

/-- Embeds countErrorMessage from src/util.js: count plus the numeric
coercion of isErrorMessage. -/
def countErrorMessage (count : Nat) (m : LintMessage) : Nat :=
  count + (isErrorMessage m).toNat

/-- Embeds countWarningMessage from src/util.js. -/
def countWarningMessage (count : Nat) (m : LintMessage) : Nat :=
  count + (isWarningMessage m).toNat

/-- Embeds countFixableErrorMessage from src/util.js: an error message
whose fix payload is defined. -/
def countFixableErrorMessage (count : Nat) (m : LintMessage) : Nat :=
  count + (isErrorMessage m && m.fix.isSome).toNat

/-- Embeds countFixableWarningMessage from src/util.js. -/
def countFixableWarningMessage (count : Nat) (m : LintMessage) : Nat :=
  count + (isWarningMessage m && m.fix.isSome).toNat

/-- Embeds countFatalErrorMessage from src/util.js: an error message
whose fatal flag is truthy. -/
def countFatalErrorMessage (count : Nat) (m : LintMessage) : Nat :=
  count + (isErrorMessage m && fatalTruthy m).toNat

/-! ### filterResult (src/util.js)

Array.prototype.filter invokes its callback with three arguments
(element, index, whole array) and an explicit this-argument. The source
passes the unfiltered result object as the this-argument, so the embedded
predicate takes the result first. Truthiness of the callback value is
abstracted to Bool. -/

/-- Index-aware embedding of Array.prototype.filter: the callback receives
each element, its index, and the whole array being filtered. -/
def jsFilterAux (callback : LintMessage → Nat → List LintMessage → Bool)
    (arr : List LintMessage) : Nat → List LintMessage → List LintMessage
  | _, [] => []
  | i, m :: rest =>
    if callback m i arr then m :: jsFilterAux callback arr (i + 1) rest
    else jsFilterAux callback arr (i + 1) rest

def jsFilter (callback : LintMessage → Nat → List LintMessage → Bool)
    (arr : List LintMessage) : List LintMessage :=
  jsFilterAux callback arr 0 arr

/-- Embeds filterResult from src/util.js: a rest-spread copy of the input
with the filtered message list and the five counts recomputed by reduce
over the count functions. The this-argument of the filter callback is the
original result, embedded as the callback's first parameter. -/
def filterResult (result : LintResult)
    (filter : LintResult → LintMessage → Nat → List LintMessage → Bool) : LintResult :=
  let newMessages := jsFilter (filter result) result.messages
  { result with
    messages := newMessages
    errorCount := newMessages.foldl countErrorMessage 0
    warningCount := newMessages.foldl countWarningMessage 0
    fixableErrorCount := newMessages.foldl countFixableErrorMessage 0
    fixableWarningCount := newMessages.foldl countFixableWarningMessage 0
    fatalErrorCount := newMessages.foldl countFatalErrorMessage 0 }

/-! ### Heap model for the frame claim about filterResult

filterResult builds its output by a rest-spread, which in JavaScript
allocates a fresh object and never writes through the input reference.
This is made explicit by a store of result objects addressed by position:
the call appends the freshly allocated output and returns its address. -/

def emptyLintResult : LintResult :=
  { filePath := ""
    messages := []
    errorCount := 0
    warningCount := 0
    fixableErrorCount := 0
    fixableWarningCount := 0
    fatalErrorCount := 0 }

/-- Store-level view of a filterResult call: the input object lives at
address i in the store; the rest-spread allocates the output at a fresh
address (the end of the store) and no statement of the source assigns
through the input reference. -/
def filterResultInStore (store : List LintResult) (i : Nat)
    (filter : LintResult → LintMessage → Nat → List LintMessage → Bool) :
    List LintResult × Nat :=
  (store ++ [filterResult (store.getD i emptyLintResult) filter], store.length)

/-! ### createPluginError (src/util.js)

Inputs are an already-tagged PluginError, a nullish value (null or
undefined, merged by the loose equality test of the source), or any other
value, wrapped as is. -/

inductive ErrorValue where
  | str (s : String)
  | exc (name : String) (message : String)
deriving DecidableEq, Repr

structure PluginErrorData where
  plugin : String
  wrapped : ErrorValue
  showStack : Bool
deriving DecidableEq, Repr

inductive RawError where
  | tagged (p : PluginErrorData)
  | nullish
  | plain (v : ErrorValue)
deriving DecidableEq, Repr

/-- Embeds createPluginError from src/util.js: a PluginError is returned
unchanged; a nullish value is replaced by the string Unknown Error; any
other value is wrapped in a new PluginError with showStack set. -/
def createPluginError : RawError → PluginErrorData
  | .tagged p => p
  | .nullish => { plugin := "gulp-eslint-new", wrapped := .str "Unknown Error", showStack := true }
  | .plain v => { plugin := "gulp-eslint-new", wrapped := v, showStack := true }

/-! ### createIgnoreResult (src/util.js)

The source computes the path of the checked file relative to the base
directory with the external path.relative and tests it against two
regular expressions. path.relative is a collaborator from the node path
module, so the embedding takes the computed relative path as a parameter;
the two regular expressions are embedded as character-list scanners.

isHiddenRegExp matches a dot that is not preceded by any character other
than a separator (slash or backslash), so it stands at the start of a
segment, and that is not followed by another dot. -/

/-- One position of the hidden-path regular expression: the scanned
character is a dot, the previous character (if any) is a separator, and
the next character (if any) is not a dot. -/
def hiddenScan : Option Char → List Char → Bool
  | _, [] => false
  | prev, c :: rest =>
    (c == '.'
        && (match prev with
            | none => true
            | some p => p == '/' || p == '\\')
        && (match rest with
            | [] => true
            | d :: _ => !(d == '.')))
      || hiddenScan (some c) rest

/-- Embeds the test of isHiddenRegExp from src/util.js. -/
def isHiddenTest (s : String) : Bool :=
  hiddenScan none s.data

/-- Literal character-by-character match of a pattern at the head of a
list. -/
def matchesAt : List Char → List Char → Bool
  | [], _ => true
  | _ :: _, [] => false
  | p :: ps, c :: cs => p == c && matchesAt ps cs

/-- One position of the node_modules regular expression: at a position not
preceded by any character other than a separator, the text node_modules
followed by a separator occurs. -/
def nodeModulesScan : Option Char → List Char → Bool
  | _, [] => false
  | prev, c :: rest =>
    ((match prev with
        | none => true
        | some p => p == '/' || p == '\\')
        && (matchesAt "node_modules/".data (c :: rest)
            || matchesAt "node_modules\\".data (c :: rest)))
      || nodeModulesScan (some c) rest

/-- Embeds the test of isInNodeModulesRegExp from src/util.js. -/
def isInNodeModulesTest (s : String) : Bool :=
  nodeModulesScan none s.data

/-- Message for files ignored because of a hidden path segment, from
src/util.js. -/
def hiddenPathMessage : String :=
  "File ignored by default. Use a negated ignore pattern (like "
    ++ "\"!<relative/path/to/filename>\") to override."

/-- Message for files ignored because they live under node_modules, from
src/util.js. -/
def nodeModulesMessage : String :=
  "File ignored by default. Use a negated ignore pattern like \"!node_modules/*\" to "
    ++ "override."

/-- Message for files ignored by a matching ignore pattern, from
src/util.js. -/
def ignorePatternMessage : String :=
  "File ignored because of a matching ignore pattern. Set \"ignore\" option to false to "
    ++ "override."

/-- Embeds createIgnoreResult from src/util.js. relativePath stands for
the value of path.relative(baseDir, filePath) computed by the external
path module. -/
def createIgnoreResult (filePath : String) (relativePath : String) : LintResult :=
  let message :=
    if isHiddenTest relativePath then hiddenPathMessage
    else if isInNodeModulesTest relativePath then nodeModulesMessage
    else ignorePatternMessage
  { filePath := filePath
    messages := [{ fatal := some false, severity := 1, message := message }]
    errorCount := 0
    warningCount := 1
    fixableErrorCount := 0
    fixableWarningCount := 0
    fatalErrorCount := 0 }

/-! ### JavaScript value and object model

The option objects handled by migrateOptions and the formatter references
handled by resolveFormatter are dynamic JavaScript values. The embedding
uses a small value type: undefined, null, booleans, numbers, strings,
arrays of strings (the only array shape the migrated legacy options use),
and plain objects as association lists of string keys in insertion order.
Symbol keys (the internal ESLintKey slot holding the engine class) carry
only the external engine constructor and are not modelled. -/

inductive JSValue where
  | undefined
  | null
  | bool (b : Bool)
  | num (n : Int)
  | str (s : String)
  | strList (l : List String)
  | obj (fields : List (String × JSValue))

/-- A JavaScript object: string keys with values, in insertion order. -/
abbrev Obj := List (String × JSValue)

def JSValue.isUndefined : JSValue → Bool
  | .undefined => true
  | _ => false

/-- Loose equality with null, as in the source's == null tests. -/
def JSValue.isNullish : JSValue → Bool
  | .undefined => true
  | .null => true
  | _ => false

/-- Whether typeof gives object: objects and arrays (null is excluded
separately by the nullish test wherever the source combines the two). -/
def JSValue.typeofIsObject : JSValue → Bool
  | .obj _ => true
  | .strList _ => true
  | _ => false

/-- Array.isArray. -/
def JSValue.isArray : JSValue → Bool
  | .strList _ => true
  | _ => false

/-- JavaScript truthiness. -/
def JSValue.truthy : JSValue → Bool
  | .undefined => false
  | .null => false
  | .bool b => b
  | .num n => n != 0
  | .str s => s != ""
  | .strList _ => true
  | .obj _ => true

/-- Property read: the value of the first entry with the key, or undefined
when the object has no such own property. -/
def oget (o : Obj) (k : String) : JSValue :=
  match o.find? (fun p => p.1 == k) with
  | some p => p.2
  | none => .undefined

/-- Embeds hasOwn from src/util.js (Object.prototype.hasOwnProperty). -/
def hasOwn (o : Obj) (k : String) : Bool :=
  o.any (fun p => p.1 == k)

/-- Property write: replaces the value in place when the key is already
present, otherwise appends the new entry, as JavaScript assignment does
with respect to key insertion order. -/
def oset (o : Obj) (k : String) (v : JSValue) : Obj :=
  if o.any (fun p => p.1 == k) then o.map (fun p => if p.1 == k then (p.1, v) else p)
  else o ++ [(k, v)]

/-- Property deletion. -/
def odelete (o : Obj) (k : String) : Obj :=
  o.filter (fun p => !(p.1 == k))

def odeleteMany (o : Obj) (ks : List String) : Obj :=
  ks.foldl odelete o

/-- Spread of a value into an object literal: objects copy their entries;
an array spreads to index-keyed entries; other spreadable values
contribute no own enumerable properties. -/
def spreadToObj : JSValue → Obj
  | .obj fields => fields
  | .strList l => l.enum.map (fun p => (toString p.1, JSValue.str p.2))
  | _ => []

/-! ### migrateOptions (src/util.js) -/

/-- Error thrown by throwInvalidOptionError: a message and the fixed code
ESLINT_INVALID_OPTIONS. -/
structure InvalidOptionsError where
  code : String
  message : String
deriving DecidableEq, Repr

/-- Embeds throwInvalidOptionError from src/util.js (the stack capture has
no observable effect on the error's code and message). -/
def throwInvalidOptionError (message : String) : InvalidOptionsError :=
  { code := "ESLINT_INVALID_OPTIONS", message := message }

/-- The forbidden option names of src/util.js, in source order. -/
def forbiddenOptions : List String :=
  ["cache", "cacheFile", "cacheLocation", "cacheStrategy", "errorOnUnmatchedPattern",
    "extensions", "globInputPaths"]

/-- String.prototype.split with separator colon and no limit, on the
character list: every colon starts a new group, and the list of groups is
never empty. -/
def splitColonChars : List Char → List (List Char)
  | [] => [[]]
  | c :: rest =>
    let r := splitColonChars rest
    if c == ':' then [] :: r
    else
      match r with
      | [] => [[c]]
      | g :: gs => (c :: g) :: gs

/-- JavaScript def.split with a colon separator, as used by toBooleanMap. -/
def splitColon (s : String) : List String :=
  (splitColonChars s.data).map (fun g => ⟨g⟩)

/-- The key of one legacy list entry: the part before the first colon. -/
def entryKey (e : String) : String :=
  (splitColon e).headD ""

/-- The explicit value of one legacy list entry: the part between the
first and the second colon, or none when the entry has no colon. -/
def entryExplicitValue (e : String) : Option String :=
  (splitColon e).get? 1

/-- Replacement part of a JavaScript assignment: the value of every entry
whose key matches is replaced, positions unchanged. -/
def bAssignReplace (key : String) (value : Bool) :
    List (String × Bool) → List (String × Bool)
  | [] => []
  | (k1, v1) :: m =>
    if k1 == key then (k1, value) :: bAssignReplace key value m
    else (k1, v1) :: bAssignReplace key value m

/-- JavaScript assignment map[key] = value on the boolean map: the value
is replaced in place when the key is already present, otherwise the entry
is appended. -/
def bAssign (map : List (String × Bool)) (key : String) (value : Bool) :
    List (String × Bool) :=
  if map.any (fun p => p.1 == key) then bAssignReplace key value map
  else map ++ [(key, value)]

/-- The boolean a legacy list entry denotes: its explicit value compared
with the string true, or the direction default when the entry has no
explicit value. -/
def decodeEntry (defaultValue : Bool) (e : String) : Bool :=
  match entryExplicitValue e with
  | none => defaultValue
  | some v => v == "true"

/-- One step of the reduce inside toBooleanMap from src/util.js: split the
entry at colons, drop it silently when its key is the prototype-pollution
sentinel, otherwise assign the key to the decoded boolean. -/
def toBooleanMapStep (defaultValue : Bool) (map : List (String × Bool)) (e : String) :
    List (String × Bool) :=
  if entryKey e == "__proto__" then map
  else bAssign map (entryKey e) (decodeEntry defaultValue e)

/-- The boolean map built by toBooleanMap for a list of entries. -/
def booleanMapEntries (defaultValue : Bool) (l : List String) : List (String × Bool) :=
  l.foldl (toBooleanMapStep defaultValue) []

/-- Embeds toBooleanMap from src/util.js: a truthy non-array argument is
rejected; a nonempty array reduces to a boolean map object; anything else
gives undefined. -/
def toBooleanMap (keys : JSValue) (defaultValue : Bool) (displayName : String) :
    Except InvalidOptionsError JSValue :=
  if keys.truthy && !keys.isArray then
    .error (throwInvalidOptionError ("Option " ++ displayName ++ " must be an array"))
  else
    match keys with
    | .strList l =>
      if l.length > 0 then
        .ok (.obj ((booleanMapEntries defaultValue l).map (fun p => (p.1, JSValue.bool p.2))))
      else .ok .undefined
    | _ => .ok .undefined

/-- The migrated options surfaced by migrateOptions. The engine class
picked from the symbol slot (or required from eslint) is external and not
modelled. -/
structure MigratedOptions where
  eslintOptions : Obj
  quiet : JSValue
  warnIgnored : JSValue

/-- The raw argument of migrateOptions: the string overload or an options
object. -/
inductive RawOptions where
  | str (s : String)
  | obj (o : Obj)

/-- State threaded through the inner migrateOption helper: the
overrideConfig object under construction and the remaining engine
options. -/
abbrev MigrationState := Obj × Obj

/-- Embeds the inner migrateOption helper of src/util.js for options
migrated with the identity conversion: read the old name from the engine
options, delete it there, and when it was defined assign it to the new
name in overrideConfig. -/
def migrateOptionPlain (p : MigrationState) (oldName newName : String) : MigrationState :=
  let value := oget p.2 oldName
  let es := odelete p.2 oldName
  if value.isUndefined then (p.1, es) else (oset p.1 newName value, es)

/-- Embeds the inner migrateOption helper of src/util.js for the two
options converted with toBooleanMap, which can throw. -/
def migrateOptionBooleanMap (p : MigrationState) (oldName newName : String)
    (defaultValue : Bool) : Except InvalidOptionsError MigrationState :=
  let value := oget p.2 oldName
  let es := odelete p.2 oldName
  if value.isUndefined then .ok (p.1, es)
  else
    match toBooleanMap value defaultValue oldName with
    | .error e => .error e
    | .ok v => .ok (oset p.1 newName v, es)

/-- Embeds the configFile block of migrateOptions: configFile is removed
from the engine options and renamed to overrideConfigFile when defined. -/
def migrateConfigFile (es : Obj) : Obj :=
  let configFile := oget es "configFile"
  let es := odelete es "configFile"
  if configFile.isUndefined then es else oset es "overrideConfigFile" configFile

/-- Embeds migrateOptions from src/util.js. A string argument is the
config path overload. Otherwise the symbol slot, overrideConfig, quiet and
the two warn-on-ignored synonyms are destructured away, the forbidden
options are rejected, overrideConfig is checked and shallow-copied, the
legacy options are migrated in source order (the overrideConfig object
stored in the engine options is mutated in place, reflected here by
replacing its value at the end), and the surfaced warnIgnored is
warnFileIgnored when that is defined, otherwise the raw warnIgnored. -/
def migrateOptions : RawOptions → Except InvalidOptionsError MigratedOptions
  | .str s =>
    .ok { eslintOptions := [("overrideConfigFile", .str s)]
          quiet := .undefined
          warnIgnored := .undefined }
  | .obj options =>
    let rawOverrideConfig := oget options "overrideConfig"
    let quiet := oget options "quiet"
    let warnFileIgnored := oget options "warnFileIgnored"
    let rawWarnIgnored := oget options "warnIgnored"
    let eslintOptions :=
      odeleteMany options ["overrideConfig", "quiet", "warnFileIgnored", "warnIgnored"]
    let invalidOptions := forbiddenOptions.filter (fun option => hasOwn options option)
    if invalidOptions.length != 0 then
      .error
        (throwInvalidOptionError
          ("Invalid options: " ++ String.intercalate ", " invalidOptions))
    else if !rawOverrideConfig.isNullish && !rawOverrideConfig.typeofIsObject then
      .error (throwInvalidOptionError "Option overrideConfig must be an object or null")
    else
      let overrideConfig :=
        if rawOverrideConfig.isNullish then [] else spreadToObj rawOverrideConfig
      let eslintOptions := oset eslintOptions "overrideConfig" (.obj overrideConfig)
      let p : MigrationState := (overrideConfig, migrateConfigFile eslintOptions)
      match migrateOptionBooleanMap p "envs" "env" true with
      | .error e => .error e
      | .ok p =>
        let p := migrateOptionPlain p "extends" "extends"
        match migrateOptionBooleanMap p "globals" "globals" false with
        | .error e => .error e
        | .ok p =>
          let p := migrateOptionPlain p "ignorePattern" "ignorePatterns"
          let p := migrateOptionPlain p "parser" "parser"
          let p := migrateOptionPlain p "parserOptions" "parserOptions"
          let p :=
            if (oget p.2 "plugins").isArray then migrateOptionPlain p "plugins" "plugins"
            else p
          let p := migrateOptionPlain p "rules" "rules"
          let warnIgnored :=
            if warnFileIgnored.isUndefined then rawWarnIgnored else warnFileIgnored
          .ok { eslintOptions := oset p.2 "overrideConfig" (.obj p.1)
                quiet := quiet
                warnIgnored := warnIgnored }

/-! ### resolveFormatter (src/util.js)

Rule metadata and formatter output are opaque to the source; they appear
as type parameters. Array.prototype.sort sorts the caller's array in
place, so the format function of the embedded formatter returns both the
post-call state of the results array and the produced output. -/

/-- Lexicographic comparison of character lists, embedding the relational
comparison JavaScript applies to strings. -/
def charListLt : List Char → List Char → Bool
  | [], [] => false
  | [], _ :: _ => true
  | _ :: _, [] => false
  | c :: cs, d :: ds => decide (c < d) || (c == d && charListLt cs ds)

/-- JavaScript string comparison a < b. -/
def strLtJS (a b : String) : Bool :=
  charListLt a.data b.data

/-- Embeds compareResultsByFilePath from src/util.js: positive when the
first path compares greater, negative when smaller, zero otherwise. -/
def compareResultsByFilePath (r1 r2 : LintResult) : Int :=
  if strLtJS r2.filePath r1.filePath then 1
  else if strLtJS r1.filePath r2.filePath then -1
  else 0

/-- The ordering relation induced by the comparator, as consumed by the
stable Array.prototype.sort: r1 stays before r2 when the comparator is
nonpositive. -/
def comparatorLE (r1 r2 : LintResult) : Prop :=
  compareResultsByFilePath r1 r2 ≤ 0

instance : DecidableRel comparatorLE :=
  fun r1 r2 => inferInstanceAs (Decidable (compareResultsByFilePath r1 r2 ≤ 0))

/-- Denotation of results.sort(compareResultsByFilePath): a stable sort by
the comparator ordering. -/
def sortByFilePath (results : List LintResult) : List LintResult :=
  List.insertionSort comparatorLE results

/-- A loaded formatter object: its format function consumes the results
array and produces output; the returned list is the post-call state of the
caller's array, making any in-place reordering observable. -/
structure LoadedFormatter (ω : Type) where
  format : List LintResult → List LintResult × ω

/-- The context handed to a plain formatter function: the working
directory and the rule metadata surfaced by the lazy rulesMeta getter.
The on-demand computation and caching of the getter itself is modelled by
lazyGetAccessRun below. -/
structure FmtContext (μ : Type) where
  cwd : String
  rulesMeta : μ

/-- The engine collaborator as consumed by resolveFormatter: the working
directory, the rule metadata lookup, and the engine's own formatter
loader. -/
structure ESLintEngineInfo (μ ω : Type) where
  cwd : String
  getRulesMetaForResults : List LintResult → μ
  loadFormatter : JSValue → LoadedFormatter ω

/-- A formatter reference: an object exposing a format function, a plain
function, or any other value (a name, a path, undefined, ...). -/
inductive FormatterRef (μ ω : Type) where
  | obj (fmt : LoadedFormatter ω)
  | func (f : List LintResult → FmtContext μ → ω)
  | other (v : JSValue)

/-- The three shapes resolveFormatter can produce: the given object used
as is, a wrapper around a plain function, or whatever the engine's own
loader returns for the given reference. -/
inductive ResolvedFormatter (ω : Type) where
  | useAsIs (fmt : LoadedFormatter ω)
  | wrapped (fmt : LoadedFormatter ω)
  | delegated (fmt : LoadedFormatter ω)

/-- Embeds the wrapper object built by resolveFormatter around a plain
formatter function: format sorts the caller's results array in place with
compareResultsByFilePath, then calls the function with the sorted array
and a context carrying cwd and the rule metadata for those same (sorted)
results. -/
def wrapFormatterFn {μ ω : Type} (info : ESLintEngineInfo μ ω)
    (f : List LintResult → FmtContext μ → ω) : LoadedFormatter ω where
  format results :=
    let sorted := sortByFilePath results
    (sorted, f sorted { cwd := info.cwd, rulesMeta := info.getRulesMetaForResults sorted })

/-- Embeds resolveFormatter from src/util.js: an object with a format
function is used as is; a plain function is wrapped; everything else is
handed to the engine's loadFormatter. -/
def resolveFormatter {μ ω : Type} (info : ESLintEngineInfo μ ω) :
    FormatterRef μ ω → ResolvedFormatter ω
  | .obj fmt => .useAsIs fmt
  | .func f => .wrapped (wrapFormatterFn info f)
  | .other v => .delegated (info.loadFormatter v)

/-! ### The lazy rulesMeta getter

The context object of the wrapper defines rulesMeta as a getter that
computes the engine lookup, redefines the property as a plain data
property holding the computed value, and returns it. The cell state is
the optional cached value (none while the property is still the getter);
one access returns the value, the new cell state, and the number of times
the engine lookup ran during that access. -/

def lazyGetAccess {μ : Type} (compute : Unit → μ) : Option μ → μ × Option μ × Nat
  | some v => (v, some v, 0)
  | none => (compute (), some (compute ()), 1)

/-- A run of n successive accesses to the getter: the list of returned
values, the final cell state, and the total number of engine lookups. -/
def lazyGetAccessRun {μ : Type} (compute : Unit → μ) :
    Nat → Option μ → List μ × Option μ × Nat
  | 0, cell => ([], cell, 0)
  | n + 1, cell =>
    let a := lazyGetAccess compute cell
    let rest := lazyGetAccessRun compute n a.2.1
    (a.1 :: rest.1, rest.2.1, a.2.2 + rest.2.2)

/-! ### Helper lemmas -/

theorem foldl_toNat_countP (q : LintMessage → Bool) :
    ∀ (l : List LintMessage) (n : Nat),
      l.foldl (fun count m => count + (q m).toNat) n = n + l.countP q
  | [], n => by simp
  | m :: l, n => by
    rw [List.foldl_cons, foldl_toNat_countP q l, List.countP_cons]
    cases q m
    · simp
    · simp [Bool.toNat]
      omega

theorem jsFilterAux_eq_enumFrom (cb : LintMessage → Nat → List LintMessage → Bool)
    (arr : List LintMessage) :
    ∀ (l : List LintMessage) (i : Nat),
      jsFilterAux cb arr i l
        = ((List.enumFrom i l).filter (fun q => cb q.2 q.1 arr)).map Prod.snd
  | [], _ => by simp [jsFilterAux]
  | m :: l, i => by
    by_cases h : cb m i arr <;>
      simp [jsFilterAux, h, jsFilterAux_eq_enumFrom cb arr l (i + 1)]

theorem jsFilter_eq_enum (cb : LintMessage → Nat → List LintMessage → Bool)
    (arr : List LintMessage) :
    jsFilter cb arr = ((arr.enum.filter (fun q => cb q.2 q.1 arr)).map Prod.snd) :=
  jsFilterAux_eq_enumFrom cb arr arr 0

/-! ### Claim theorems for the result model -/

/-- Claim C2: for every lint result r and predicate p, filterResult r p
keeps exactly the messages of r, in original order, at which the
predicate applied to the message, its index, and the original message
list (with r as the invocation context, embedded as the predicate's first
argument) is truthy, and recomputes the five counts from the kept
sequence: errorCount counts kept messages of severity above one,
warningCount those of severity one, the two fixable counts those among
them with a defined fix payload, and fatalErrorCount the kept error
messages with a truthy fatal flag. -/
theorem filterResult_filters_and_recounts
    (r : LintResult) (p : LintResult → LintMessage → Nat → List LintMessage → Bool) :
    (filterResult r p).messages
        = ((r.messages.enum.filter (fun q => p r q.2 q.1 r.messages)).map Prod.snd)
      ∧ (filterResult r p).errorCount = (filterResult r p).messages.countP isErrorMessage
      ∧ (filterResult r p).warningCount = (filterResult r p).messages.countP isWarningMessage
      ∧ (filterResult r p).fixableErrorCount
          = (filterResult r p).messages.countP (fun m => isErrorMessage m && m.fix.isSome)
      ∧ (filterResult r p).fixableWarningCount
          = (filterResult r p).messages.countP (fun m => isWarningMessage m && m.fix.isSome)
      ∧ (filterResult r p).fatalErrorCount
          = (filterResult r p).messages.countP (fun m => isErrorMessage m && fatalTruthy m) :=
  ⟨jsFilter_eq_enum (p r) r.messages,
    (foldl_toNat_countP isErrorMessage _ 0).trans (Nat.zero_add _),
    (foldl_toNat_countP isWarningMessage _ 0).trans (Nat.zero_add _),
    (foldl_toNat_countP (fun m => isErrorMessage m && m.fix.isSome) _ 0).trans (Nat.zero_add _),
    (foldl_toNat_countP (fun m => isWarningMessage m && m.fix.isSome) _ 0).trans (Nat.zero_add _),
    (foldl_toNat_countP (fun m => isErrorMessage m && fatalTruthy m) _ 0).trans (Nat.zero_add _)⟩

/-- Claim C6: createIgnoreResult always returns exactly one message, of
severity 1 with fatal false and no fix payload, and its five counts are 0,
1, 0, 0, 0, which are exactly the classification counts over the
single-message sequence. -/
theorem createIgnoreResult_counts (fp rel : String) :
    (createIgnoreResult fp rel).messages.map (fun m => (m.severity, m.fatal, m.fix))
        = [(1, some false, none)]
      ∧ (createIgnoreResult fp rel).errorCount = 0
      ∧ (createIgnoreResult fp rel).warningCount = 1
      ∧ (createIgnoreResult fp rel).fixableErrorCount = 0
      ∧ (createIgnoreResult fp rel).fixableWarningCount = 0
      ∧ (createIgnoreResult fp rel).fatalErrorCount = 0
      ∧ (createIgnoreResult fp rel).errorCount
          = (createIgnoreResult fp rel).messages.countP isErrorMessage
      ∧ (createIgnoreResult fp rel).warningCount
          = (createIgnoreResult fp rel).messages.countP isWarningMessage
      ∧ (createIgnoreResult fp rel).fixableErrorCount
          = (createIgnoreResult fp rel).messages.countP
              (fun m => isErrorMessage m && m.fix.isSome)
      ∧ (createIgnoreResult fp rel).fixableWarningCount
          = (createIgnoreResult fp rel).messages.countP
              (fun m => isWarningMessage m && m.fix.isSome)
      ∧ (createIgnoreResult fp rel).fatalErrorCount
          = (createIgnoreResult fp rel).messages.countP
              (fun m => isErrorMessage m && fatalTruthy m) := by
  simp [createIgnoreResult, isErrorMessage, isWarningMessage, fatalTruthy, List.countP_cons]

/-- Claim C7: createPluginError returns an already-tagged PluginError
unchanged (so the wrapping is idempotent), replaces a nullish input by the
message Unknown Error, and wraps any other value in a PluginError tagged
with the plugin name and the showStack diagnostic flag set. -/
theorem createPluginError_single_shape (e : RawError) (p : PluginErrorData) (v : ErrorValue) :
    createPluginError (.tagged p) = p
      ∧ createPluginError (.tagged (createPluginError e)) = createPluginError e
      ∧ createPluginError .nullish
          = { plugin := "gulp-eslint-new", wrapped := .str "Unknown Error", showStack := true }
      ∧ createPluginError (.plain v)
          = { plugin := "gulp-eslint-new", wrapped := v, showStack := true }
      ∧ (createPluginError (.plain v)).showStack = true :=
  ⟨rfl, rfl, rfl, rfl, rfl⟩

/-- Claim C8: in the store model of filterResult, a call leaves every
pre-existing object unchanged (in particular the input result: its message
list and counts after the call are its original ones) and returns a fresh
address, distinct from the input's, holding the filtered result. -/
theorem filterResult_input_unchanged
    (store : List LintResult) (i : Nat)
    (p : LintResult → LintMessage → Nat → List LintMessage → Bool)
    (h : i < store.length) :
    (filterResultInStore store i p).1.take store.length = store
      ∧ (filterResultInStore store i p).2 = store.length
      ∧ (filterResultInStore store i p).2 ≠ i
      ∧ (filterResultInStore store i p).1.getD (filterResultInStore store i p).2 emptyLintResult
          = filterResult (store.getD i emptyLintResult) p := by
  refine ⟨List.take_left store _, rfl, Ne.symm (Nat.ne_of_lt h), ?_⟩
  simp [filterResultInStore, List.getD]

def sampleMessage : LintMessage :=
  { severity := 2, fatal := some true, fix := some () }

def sampleResult : LintResult :=
  { filePath := "a.js"
    messages := [sampleMessage]
    errorCount := 1
    warningCount := 0
    fixableErrorCount := 1
    fixableWarningCount := 0
    fatalErrorCount := 1 }

def keepNoMessages : LintResult → LintMessage → Nat → List LintMessage → Bool :=
  fun _ _ _ _ => false

/-- Witness for claim C8 at a concrete one-object store. -/
theorem filterResult_input_unchanged_witness :
    (filterResultInStore [sampleResult] 0 keepNoMessages).1.take [sampleResult].length
        = [sampleResult]
      ∧ (filterResultInStore [sampleResult] 0 keepNoMessages).2 = [sampleResult].length
      ∧ (filterResultInStore [sampleResult] 0 keepNoMessages).2 ≠ 0
      ∧ (filterResultInStore [sampleResult] 0 keepNoMessages).1.getD
            (filterResultInStore [sampleResult] 0 keepNoMessages).2 emptyLintResult
          = filterResult ([sampleResult].getD 0 emptyLintResult) keepNoMessages :=
  filterResult_input_unchanged [sampleResult] 0 keepNoMessages (by decide)

/-- Claim C3: the ignore reason of createIgnoreResult is chosen on the
relative path in a fixed order: a hidden segment wins even when the
node_modules test also matches; otherwise a node_modules segment selects
the node_modules message; otherwise the generic ignore-pattern message is
used; with the three instances named by the claim and a path on which
both tests match. -/
theorem createIgnoreResult_reason_order (fp rel : String) :
    (isHiddenTest rel = true →
        (createIgnoreResult fp rel).messages.map (fun m => m.message) = [hiddenPathMessage])
      ∧ (isHiddenTest rel = false → isInNodeModulesTest rel = true →
        (createIgnoreResult fp rel).messages.map (fun m => m.message) = [nodeModulesMessage])
      ∧ (isHiddenTest rel = false → isInNodeModulesTest rel = false →
        (createIgnoreResult fp rel).messages.map (fun m => m.message) = [ignorePatternMessage])
      ∧ (createIgnoreResult fp ".hidden/file.js").messages.map (fun m => m.message)
          = [hiddenPathMessage]
      ∧ isHiddenTest ".hidden/node_modules/pkg/a.js" = true
      ∧ isInNodeModulesTest ".hidden/node_modules/pkg/a.js" = true
      ∧ (createIgnoreResult fp ".hidden/node_modules/pkg/a.js").messages.map (fun m => m.message)
          = [hiddenPathMessage]
      ∧ isHiddenTest "node_modules/pkg/a.js" = false
      ∧ (createIgnoreResult fp "node_modules/pkg/a.js").messages.map (fun m => m.message)
          = [nodeModulesMessage]
      ∧ (createIgnoreResult fp "src/a.js").messages.map (fun m => m.message)
          = [ignorePatternMessage] :=
  ⟨fun h1 => by simp [createIgnoreResult, h1],
    fun h1 h2 => by simp [createIgnoreResult, h1, h2],
    fun h1 h2 => by simp [createIgnoreResult, h1, h2],
    rfl, rfl, rfl, rfl, rfl, rfl, rfl⟩

/-- Witness for claim C3 at the three concrete relative paths. -/
theorem createIgnoreResult_reason_order_witness :
    (createIgnoreResult "/base/x.js" ".cfg/a.js").messages.map (fun m => m.message)
        = [hiddenPathMessage]
      ∧ (createIgnoreResult "/base/x.js" "node_modules/b.js").messages.map (fun m => m.message)
          = [nodeModulesMessage]
      ∧ (createIgnoreResult "/base/x.js" "lib/c.js").messages.map (fun m => m.message)
          = [ignorePatternMessage] :=
  ⟨(createIgnoreResult_reason_order "/base/x.js" ".cfg/a.js").1 (by decide),
    (createIgnoreResult_reason_order "/base/x.js" "node_modules/b.js").2.1 (by decide) (by decide),
    (createIgnoreResult_reason_order "/base/x.js" "lib/c.js").2.2.1 (by decide) (by decide)⟩

/-! ### Ordering facts for the comparator -/

theorem charListLt_iff : ∀ (a b : List Char), charListLt a b = true ↔ List.Lex (· < ·) a b
  | [], [] => iff_of_false (by simp [charListLt]) (List.Lex.not_nil_right _ _)
  | [], _ :: _ => iff_of_true (by simp [charListLt]) List.Lex.nil
  | _ :: _, [] => iff_of_false (by simp [charListLt]) (List.Lex.not_nil_right _ _)
  | c :: cs, d :: ds => by
    simp only [charListLt, Bool.or_eq_true, Bool.and_eq_true, decide_eq_true_eq, beq_iff_eq]
    constructor
    · rintro (h | ⟨rfl, h⟩)
      · exact List.Lex.rel h
      · exact List.Lex.cons ((charListLt_iff cs ds).mp h)
    · intro h
      cases h with
      | cons h => exact Or.inr ⟨rfl, (charListLt_iff cs ds).mpr h⟩
      | rel h => exact Or.inl h

theorem comparatorLE_iff (r1 r2 : LintResult) :
    comparatorLE r1 r2 ↔ ¬ List.Lex (· < ·) r2.filePath.data r1.filePath.data := by
  by_cases h : charListLt r2.filePath.data r1.filePath.data = true
  · refine iff_of_false ?_ (fun hn => hn ((charListLt_iff _ _).mp h))
    simp only [comparatorLE, compareResultsByFilePath, strLtJS, h, if_true]
    decide
  · refine iff_of_true ?_ (fun hl => h ((charListLt_iff _ _).mpr hl))
    simp only [comparatorLE, compareResultsByFilePath, strLtJS, h, if_false]
    by_cases h2 : charListLt r1.filePath.data r2.filePath.data = true <;> simp [h2]

instance : IsTotal LintResult comparatorLE :=
  ⟨fun a b => by
    rw [comparatorLE_iff, comparatorLE_iff]
    by_cases h : List.Lex (· < ·) b.filePath.data a.filePath.data
    · exact Or.inr (asymm h)
    · exact Or.inl h⟩

instance : IsTrans LintResult comparatorLE :=
  ⟨fun a b c hab hbc => by
    rw [comparatorLE_iff] at hab hbc ⊢
    intro hca
    rcases trichotomous_of (List.Lex (fun c1 c2 : Char => c1 < c2))
        b.filePath.data c.filePath.data with h | h | h
    · exact hab (IsTrans.trans _ _ _ h hca)
    · rw [h] at hab
      exact hab hca
    · exact hbc h⟩

/-! ### The lazy getter runs the engine lookup exactly once -/

theorem lazyGetAccessRun_cached {μ : Type} (compute : Unit → μ) (v : μ) :
    ∀ n, lazyGetAccessRun compute n (some v) = (List.replicate n v, some v, 0)
  | 0 => rfl
  | n + 1 => by
    simp [lazyGetAccessRun, lazyGetAccess, lazyGetAccessRun_cached compute v n, List.replicate]

/-! ### Claim theorems for resolveFormatter -/

/-- Claim C9: resolveFormatter uses an object exposing a format function
as is; wraps a plain function into a formatter whose format sorts the
results by file path (the comparator ordering: the sorted list is a
permutation of the input, sorted under the comparator) and then calls the
function with the sorted results and a context of cwd and the rule
metadata computed for those results; the rulesMeta getter runs the engine
lookup exactly once over any positive number of accesses and every access
yields that cached value; any other reference is delegated to the
engine's own formatter loader with the reference as the name. -/
theorem resolveFormatter_dispatch {μ ω : Type} (info : ESLintEngineInfo μ ω)
    (fmt : LoadedFormatter ω) (f : List LintResult → FmtContext μ → ω) (v : JSValue)
    (results : List LintResult) (compute : Unit → μ) (n : Nat) :
    resolveFormatter info (.obj fmt) = .useAsIs fmt
      ∧ resolveFormatter info (.func f) = .wrapped (wrapFormatterFn info f)
      ∧ (wrapFormatterFn info f).format results
          = (sortByFilePath results,
              f (sortByFilePath results)
                { cwd := info.cwd
                  rulesMeta := info.getRulesMetaForResults (sortByFilePath results) })
      ∧ (sortByFilePath results).Perm results
      ∧ List.Sorted comparatorLE (sortByFilePath results)
      ∧ resolveFormatter info (.other v) = .delegated (info.loadFormatter v)
      ∧ (lazyGetAccessRun compute (n + 1) none).2.2 = 1
      ∧ (lazyGetAccessRun compute (n + 1) none).1 = List.replicate (n + 1) (compute ()) := by
  refine ⟨rfl, rfl, rfl, List.perm_insertionSort comparatorLE results,
    List.sorted_insertionSort comparatorLE results, rfl, ?_, ?_⟩ <;>
    simp [lazyGetAccessRun, lazyGetAccess, lazyGetAccessRun_cached, List.replicate]

def resA : LintResult :=
  { emptyLintResult with filePath := "a.js" }

def resB : LintResult :=
  { emptyLintResult with filePath := "b.js" }

/-- Claim C10: the format function of the wrapper built around a plain
formatter function sorts the caller's results array in place: the
post-call state of the array is the sorted permutation of its previous
contents, and on a concretely unsorted array the post-call state differs
from the pre-call state, unlike filterResult, which leaves its input
untouched in the store model. -/
theorem wrapped_format_sorts_in_place {μ ω : Type} (info : ESLintEngineInfo μ ω)
    (f : List LintResult → FmtContext μ → ω) (results : List LintResult) :
    ((wrapFormatterFn info f).format results).1 = sortByFilePath results
      ∧ (sortByFilePath results).Perm results
      ∧ sortByFilePath [resB, resA] = [resA, resB]
      ∧ [resA, resB] ≠ [resB, resA]
      ∧ (filterResultInStore [resA] 0 keepNoMessages).1.take [resA].length = [resA] :=
  ⟨rfl, List.perm_insertionSort comparatorLE results, rfl,
    by simp [resA, resB, emptyLintResult], List.take_left _ _⟩

/-! ### Claim theorems for migrateOptions -/

/-- Claim C1 counterexample: with warnFileIgnored false and warnIgnored
true both defined, migrateOptions surfaces false — the value of the older
legacy name warnFileIgnored — not true, the value of the newer name
warnIgnored as the claim states. -/
theorem migrateOptions_warnIgnored_counterexample :
    migrateOptions (.obj [("warnFileIgnored", .bool false), ("warnIgnored", .bool true)])
        = .ok { eslintOptions := [("overrideConfig", .obj [])]
                quiet := .undefined
                warnIgnored := .bool false }
      ∧ JSValue.bool false ≠ JSValue.bool true :=
  ⟨rfl, by simp⟩

/-- Claim C1 (amended): migrateOptions surfaces exactly one warnIgnored
value: the value of the older name warnFileIgnored when that is defined
(in particular when both synonyms are defined), otherwise the value of
warnIgnored; when neither is defined the surfaced value is undefined. -/
theorem migrateOptions_warnIgnored (o : Obj) (m : MigratedOptions)
    (h : migrateOptions (.obj o) = .ok m) :
    m.warnIgnored
      = (if (oget o "warnFileIgnored").isUndefined then oget o "warnIgnored"
          else oget o "warnFileIgnored") := by
  simp only [migrateOptions] at h
  split at h
  · exact Except.noConfusion h
  · split at h
    · exact Except.noConfusion h
    · split at h
      · exact Except.noConfusion h
      · split at h
        · exact Except.noConfusion h
        · injection h with h1
          rw [← h1]

/-- Witness for claim C1: both synonyms defined, the older wins. -/
theorem migrateOptions_warnIgnored_witness :
    (MigratedOptions.mk [("overrideConfig", .obj [])] .undefined (.bool false)).warnIgnored
      = (if (oget [("warnFileIgnored", JSValue.bool false), ("warnIgnored", JSValue.bool true)]
              "warnFileIgnored").isUndefined
          then oget [("warnFileIgnored", JSValue.bool false), ("warnIgnored", JSValue.bool true)]
              "warnIgnored"
          else oget [("warnFileIgnored", JSValue.bool false), ("warnIgnored", JSValue.bool true)]
              "warnFileIgnored") :=
  migrateOptions_warnIgnored
    [("warnFileIgnored", JSValue.bool false), ("warnIgnored", JSValue.bool true)]
    (MigratedOptions.mk [("overrideConfig", .obj [])] .undefined (.bool false)) rfl

/-! ### Lookup semantics of the boolean map built by toBooleanMap -/

/-- Lookup in the boolean map: the value of the first entry with the key. -/
def lookupBool : List (String × Bool) → String → Option Bool
  | [], _ => none
  | (k1, v1) :: m, k => if k1 == k then some v1 else lookupBool m k

/-- The boolean the claim assigns to a key: the decoded value of the last
entry of the legacy list whose key part matches, later entries
overriding earlier ones. -/
def lastMatchValue (defaultValue : Bool) (k : String) : List String → Option Bool
  | [] => none
  | e :: rest =>
    match lastMatchValue defaultValue k rest with
    | some v => some v
    | none => if entryKey e == k then some (decodeEntry defaultValue e) else none

theorem lookupBool_map_assign_self (k : String) (v : Bool) :
    ∀ (m : List (String × Bool)), m.any (fun p => p.1 == k) = true →
      lookupBool (bAssignReplace k v m) k = some v
  | (k1, v1) :: m, hany => by
    by_cases hp : k1 = k
    · simp [bAssignReplace, lookupBool, hp]
    · have hm : m.any (fun p => p.1 == k) = true := by simpa [hp] using hany
      simp [bAssignReplace, lookupBool, hp, lookupBool_map_assign_self k v m hm]

theorem lookupBool_append_single_self (k : String) (v : Bool) :
    ∀ (m : List (String × Bool)), m.any (fun p => p.1 == k) = false →
      lookupBool (m ++ [(k, v)]) k = some v
  | [], _ => by simp [lookupBool]
  | (k1, v1) :: m, hany => by
    rw [List.any_cons] at hany
    obtain ⟨h1, h2⟩ := Bool.or_eq_false_iff.mp hany
    have h1n : ¬(k1 = k) := by simpa using h1
    simp [lookupBool, h1n, lookupBool_append_single_self k v m h2]

theorem lookupBool_bAssign_self (m : List (String × Bool)) (k : String) (v : Bool) :
    lookupBool (bAssign m k v) k = some v := by
  unfold bAssign
  by_cases hany : m.any (fun p => p.1 == k) = true
  · rw [if_pos hany]
    exact lookupBool_map_assign_self k v m hany
  · rw [if_neg hany]
    have hf : m.any (fun p => p.1 == k) = false := by
      cases hb : m.any (fun p => p.1 == k)
      · rfl
      · exact absurd hb hany
    exact lookupBool_append_single_self k v m hf

theorem lookupBool_map_assign_other (k : String) (v : Bool) (k' : String) (h : ¬(k' = k)) :
    ∀ (m : List (String × Bool)),
      lookupBool (bAssignReplace k v m) k' = lookupBool m k'
  | [] => rfl
  | (k1, v1) :: m => by
    by_cases hp : k1 = k
    · have hkk : ¬(k = k') := fun hh => h hh.symm
      simp [bAssignReplace, lookupBool, hp, hkk, lookupBool_map_assign_other k v k' h m]
    · by_cases hp' : k1 = k'
      · simp [bAssignReplace, lookupBool, hp, hp', h]
      · simp [bAssignReplace, lookupBool, hp, hp', lookupBool_map_assign_other k v k' h m]

theorem lookupBool_append_single_other (k : String) (v : Bool) (k' : String) (h : ¬(k' = k)) :
    ∀ (m : List (String × Bool)), lookupBool (m ++ [(k, v)]) k' = lookupBool m k'
  | [] => by
    have hkk : ¬(k = k') := fun hh => h hh.symm
    simp [lookupBool, hkk]
  | (k1, v1) :: m => by
    by_cases hp' : k1 = k'
    · simp [lookupBool, hp']
    · simp [lookupBool, hp', lookupBool_append_single_other k v k' h m]

theorem lookupBool_bAssign_other (m : List (String × Bool)) (k : String) (v : Bool)
    (k' : String) (h : ¬(k' = k)) : lookupBool (bAssign m k v) k' = lookupBool m k' := by
  unfold bAssign
  by_cases hany : m.any (fun p => p.1 == k) = true
  · rw [if_pos hany]
    exact lookupBool_map_assign_other k v k' h m
  · rw [if_neg hany]
    exact lookupBool_append_single_other k v k' h m

theorem lookupBool_foldl_step (d : Bool) (k : String) (hk : ¬(k = "__proto__")) :
    ∀ (l : List String) (m : List (String × Bool)),
      lookupBool (l.foldl (toBooleanMapStep d) m) k
        = (match lastMatchValue d k l with
            | some v => some v
            | none => lookupBool m k)
  | [], m => by simp [lastMatchValue]
  | e :: l, m => by
    rw [List.foldl_cons, lookupBool_foldl_step d k hk l (toBooleanMapStep d m e)]
    cases hl : lastMatchValue d k l with
    | some v => simp [lastMatchValue, hl]
    | none =>
      simp only [lastMatchValue, hl]
      unfold toBooleanMapStep
      by_cases hpe : (entryKey e == "__proto__") = true
      · have hek : (entryKey e == k) = false := by
          have hpe' : entryKey e = "__proto__" := by simpa using hpe
          exact beq_eq_false_iff_ne.mpr (fun hh => hk ((hpe' ▸ hh).symm))
        rw [if_pos hpe, if_neg (by simp [hek])]
      · rw [if_neg hpe]
        by_cases hek : (entryKey e == k) = true
        · have hek' : entryKey e = k := by simpa using hek
          rw [if_pos hek, ← hek']
          exact lookupBool_bAssign_self m (entryKey e) (decodeEntry d e)
        · have hne : ¬(k = entryKey e) := fun hh => hek (by simp [hh])
          rw [if_neg hek]
          exact lookupBool_bAssign_other m (entryKey e) (decodeEntry d e) k hne

theorem lookupBool_foldl_proto (d : Bool) :
    ∀ (l : List String) (m : List (String × Bool)),
      lookupBool (l.foldl (toBooleanMapStep d) m) "__proto__" = lookupBool m "__proto__"
  | [], _ => rfl
  | e :: l, m => by
    rw [List.foldl_cons, lookupBool_foldl_proto d l (toBooleanMapStep d m e)]
    unfold toBooleanMapStep
    by_cases hpe : (entryKey e == "__proto__") = true
    · rw [if_pos hpe]
    · have hne : ¬(("__proto__" : String) = entryKey e) := fun hh => hpe (by simp [hh])
      rw [if_neg hpe]
      exact lookupBool_bAssign_other m (entryKey e) (decodeEntry d e) "__proto__" hne

theorem toBooleanMap_strList_ok (l : List String) (d : Bool) (dn : String) (hne : l ≠ []) :
    toBooleanMap (.strList l) d dn
      = .ok (.obj ((booleanMapEntries d l).map (fun p => (p.1, JSValue.bool p.2)))) := by
  have hpos : 0 < l.length := List.length_pos.mpr hne
  simp [toBooleanMap, JSValue.truthy, JSValue.isArray, hpos]

/-- Claim C4 counterexample: an empty string array is a string array, yet
migrateOptions assigns undefined — not a key-to-boolean map object — to
the migrated globals option. -/
theorem toBooleanMap_empty_counterexample :
    migrateOptions (.obj [("globals", .strList [])])
        = .ok { eslintOptions := [("overrideConfig", .obj [("globals", .undefined)])]
                quiet := .undefined
                warnIgnored := .undefined }
      ∧ JSValue.undefined ≠ JSValue.obj [] :=
  ⟨rfl, by simp⟩

/-- Claim C4 (amended): for every nonempty string array given as the
legacy envs or globals option, migrateOptions converts it with
toBooleanMap to a key-to-boolean map object: each entry is split at
colons into a key and an optional explicit value; the key maps to the
decoded value of the last entry carrying it — the explicit value compared
with the string true, or the direction default (true for envs, false for
globals) when the entry has no colon — and an entry whose key is the
prototype-pollution sentinel is silently dropped; in particular the
claim's example migrates as stated. An empty array instead migrates to
undefined (see the counterexample). -/
theorem toBooleanMap_nonempty_spec (l : List String) (d : Bool) (dn : String)
    (hne : l ≠ []) :
    toBooleanMap (.strList l) d dn
        = .ok (.obj ((booleanMapEntries d l).map (fun p => (p.1, JSValue.bool p.2))))
      ∧ lookupBool (booleanMapEntries d l) "__proto__" = none
      ∧ (∀ k, ¬(k = "__proto__") →
          lookupBool (booleanMapEntries d l) k = lastMatchValue d k l)
      ∧ migrateOptions (.obj [("envs", .strList l)])
          = .ok { eslintOptions :=
                    [("overrideConfig",
                      .obj [("env",
                        .obj ((booleanMapEntries true l).map
                          (fun p => (p.1, JSValue.bool p.2))))])]
                  quiet := .undefined
                  warnIgnored := .undefined }
      ∧ migrateOptions (.obj [("globals", .strList l)])
          = .ok { eslintOptions :=
                    [("overrideConfig",
                      .obj [("globals",
                        .obj ((booleanMapEntries false l).map
                          (fun p => (p.1, JSValue.bool p.2))))])]
                  quiet := .undefined
                  warnIgnored := .undefined }
      ∧ migrateOptions (.obj [("globals", .strList ["$", "jQuery:true"])])
          = .ok { eslintOptions :=
                    [("overrideConfig",
                      .obj [("globals", .obj [("$", .bool false), ("jQuery", .bool true)])])]
                  quiet := .undefined
                  warnIgnored := .undefined } := by
  refine ⟨toBooleanMap_strList_ok l d dn hne, ?_, ?_, ?_, ?_, rfl⟩
  · exact (lookupBool_foldl_proto d l []).trans rfl
  · intro k hk
    rw [booleanMapEntries, lookupBool_foldl_step d k hk l []]
    cases lastMatchValue d k l <;> rfl
  · simp [migrateOptions, migrateOptionBooleanMap, migrateOptionPlain, migrateConfigFile,
      odeleteMany, odelete, oget, oset, hasOwn, forbiddenOptions, spreadToObj,
      JSValue.isUndefined, JSValue.isNullish, JSValue.typeofIsObject, JSValue.isArray,
      List.find?, List.filter, List.any,
      toBooleanMap_strList_ok l true "envs" hne]
  · simp [migrateOptions, migrateOptionBooleanMap, migrateOptionPlain, migrateConfigFile,
      odeleteMany, odelete, oget, oset, hasOwn, forbiddenOptions, spreadToObj,
      JSValue.isUndefined, JSValue.isNullish, JSValue.typeofIsObject, JSValue.isArray,
      List.find?, List.filter, List.any,
      toBooleanMap_strList_ok l false "globals" hne]

/-- Witness for claim C4 at the claim's own example. -/
theorem toBooleanMap_nonempty_spec_witness :
    toBooleanMap (.strList ["$", "jQuery:true"]) false "globals"
        = .ok (.obj ((booleanMapEntries false ["$", "jQuery:true"]).map
            (fun p => (p.1, JSValue.bool p.2))))
      ∧ lookupBool (booleanMapEntries false ["$", "jQuery:true"]) "jQuery"
          = lastMatchValue false "jQuery" ["$", "jQuery:true"] :=
  ⟨(toBooleanMap_nonempty_spec ["$", "jQuery:true"] false "globals" (by simp)).1,
    (toBooleanMap_nonempty_spec ["$", "jQuery:true"] false "globals" (by simp)).2.2.1
      "jQuery" (by simp)⟩

theorem toBooleanMap_error_shape (keys : JSValue) (d : Bool) (dn : String)
    (e : InvalidOptionsError) (h : toBooleanMap keys d dn = .error e) :
    e = throwInvalidOptionError ("Option " ++ dn ++ " must be an array") := by
  unfold toBooleanMap at h
  split at h
  · injection h with h1
    exact h1.symm
  · split at h
    · split at h
      · exact Except.noConfusion h
      · exact Except.noConfusion h
    · exact Except.noConfusion h

theorem migrateOptionBooleanMap_error_shape (p : MigrationState) (oldName newName : String)
    (d : Bool) (e : InvalidOptionsError)
    (h : migrateOptionBooleanMap p oldName newName d = .error e) :
    e = throwInvalidOptionError ("Option " ++ oldName ++ " must be an array") := by
  simp only [migrateOptionBooleanMap] at h
  split at h
  · exact Except.noConfusion h
  · split at h
    · next e1 heq =>
      injection h with h1
      rw [← h1]
      exact toBooleanMap_error_shape _ d oldName e1 heq
    · exact Except.noConfusion h

/-- Claim C5 counterexample: an options object with no forbidden own
property can still make migrateOptions fail with an InvalidOptionsError
of code ESLINT_INVALID_OPTIONS (a non-array envs value), so failing with
an InvalidOptionsError is not equivalent to the presence of a forbidden
option name. -/
theorem migrateOptions_forbidden_counterexample :
    forbiddenOptions.filter (fun k => hasOwn [("envs", JSValue.str "x")] k) = []
      ∧ migrateOptions (.obj [("envs", .str "x")])
          = .error { code := "ESLINT_INVALID_OPTIONS"
                     message := "Option envs must be an array" } :=
  ⟨rfl, rfl⟩

/-- Claim C5 (amended): for every non-string raw options object,
migrateOptions fails with the forbidden-options error — an
InvalidOptionsError of code ESLINT_INVALID_OPTIONS whose message lists
every forbidden own property present, in the fixed order of the forbidden
list (cache, cacheFile, cacheLocation, cacheStrategy,
errorOnUnmatchedPattern, extensions, globInputPaths) — exactly when at
least one forbidden own property is present; when none is present, no
forbidden-options error is raised, though the remaining validations can
still raise an InvalidOptionsError about overrideConfig, envs or
globals. -/
theorem migrateOptions_forbidden_check (o : Obj) :
    ((forbiddenOptions.filter (fun k => hasOwn o k)) ≠ [] →
        migrateOptions (.obj o)
          = .error
              { code := "ESLINT_INVALID_OPTIONS"
                message := "Invalid options: "
                  ++ String.intercalate ", " (forbiddenOptions.filter (fun k => hasOwn o k)) })
      ∧ ((forbiddenOptions.filter (fun k => hasOwn o k)) = [] →
          ∀ e, migrateOptions (.obj o) = .error e →
            e.code = "ESLINT_INVALID_OPTIONS"
              ∧ (e.message = "Option overrideConfig must be an object or null"
                  ∨ e.message = "Option envs must be an array"
                  ∨ e.message = "Option globals must be an array")) := by
  constructor
  · intro hne
    have hlen : ((forbiddenOptions.filter (fun option => hasOwn o option)).length != 0)
        = true :=
      bne_iff_ne.mpr (Nat.pos_iff_ne_zero.mp (List.length_pos.mpr hne))
    simp only [migrateOptions, hlen, if_true]
    rfl
  · intro hnil e h
    simp only [migrateOptions] at h
    rw [hnil] at h
    simp only [List.length_nil, bne_self_eq_false, Bool.false_eq_true, if_false] at h
    split at h
    · injection h with h1
      rw [← h1]
      exact ⟨rfl, Or.inl rfl⟩
    · split at h
      · next e1 heq =>
        injection h with h1
        rw [← h1]
        have he1 := migrateOptionBooleanMap_error_shape _ "envs" "env" true e1 heq
        rw [he1]
        exact ⟨rfl, Or.inr (Or.inl rfl)⟩
      · split at h
        · next e1 heq =>
          injection h with h1
          rw [← h1]
          have he1 := migrateOptionBooleanMap_error_shape _ "globals" "globals" false e1 heq
          rw [he1]
          exact ⟨rfl, Or.inr (Or.inr rfl)⟩
        · exact Except.noConfusion h

/-- Witness for claim C5 at an options object holding two forbidden
names, listed in the fixed order. -/
theorem migrateOptions_forbidden_check_witness :
    migrateOptions (.obj [("extensions", JSValue.null), ("cache", JSValue.bool true)])
        = .error
            { code := "ESLINT_INVALID_OPTIONS"
              message := "Invalid options: "
                ++ String.intercalate ", "
                    (forbiddenOptions.filter
                      (fun k =>
                        hasOwn [("extensions", JSValue.null), ("cache", JSValue.bool true)] k)) } :=
  (migrateOptions_forbidden_check [("extensions", .null), ("cache", .bool true)]).1 (by decide)

end GulpESLintNew
